import Mathlib

/-!
Shallow embedding of the `agenticAI` tutor repository, covering:

* `src/conversational_mode/tutor_agent.py` — the policy-enforced chat loop
  (`PolicyState`, `TutorAgent.chat`) together with `unified_tool.py`'s
  `execute_tool` result shape;
* `src/conversational_mode/topic_normalizer.py` — `normalize_topic`;
* `src/agentic_ai_tutor/tools/knowledge_base_write.py` — `_update_metadata`,
  `_write_note`, `_log_event`, `knowledge_base_write`;
* `src/agentic_ai_tutor/tools/knowledge_base_read.py` — `_read_profile`.

File I/O is modelled by explicit state passing, Python floats by `ℚ`,
`datetime.now(...)` by explicit timestamp parameters, and the external
LLM / tool-execution / embedding collaborators by oracle functions.
-/

/-- Association-list lookup, mirroring Python dict access `d[k]`.
The assoc lists built by these models are keyed uniquely (Python dicts). -/
def lookupA {α : Type} : List (String × α) → String → Option α
  | [], _ => none
  | (k, v) :: rest, key => if k = key then some v else lookupA rest key

/-- Association-list update `d[k] = v`: replace in place if the key is present,
else append at the end (Python dicts preserve insertion order). -/
def setA {α : Type} : List (String × α) → String → α → List (String × α)
  | [], key, v => [(key, v)]
  | (k, w) :: rest, key, v =>
    if k = key then (key, v) :: rest else (k, w) :: setA rest key v

/-- `leadsChars p s` : `p` is an initial segment of `s` (helper for the
substring test below). -/
def leadsChars : List Char → List Char → Bool
  | [], _ => true
  | _ :: _, [] => false
  | p :: ps, c :: cs => p == c && leadsChars ps cs

/-- `occursWithin p s` : `p` occurs contiguously somewhere in `s`. -/
def occursWithin (p : List Char) : List Char → Bool
  | [] => leadsChars p []
  | c :: cs => leadsChars p (c :: cs) || occursWithin p cs

/-- Boolean model of the Python substring test `pat in s`. -/
def containsSub (s pat : String) : Bool :=
  occursWithin pat.toList s.toList

/-- Index of the first occurrence of `p` in a character list
(model of Python `str.find` / leftmost regex match position). -/
def firstOccur (p : List Char) : List Char → Option Nat
  | [] => if leadsChars p [] then some 0 else none
  | c :: cs =>
    if leadsChars p (c :: cs) then some 0
    else (firstOccur p cs).map (fun n => n + 1)

/-- Python `str.lower()`, character by character (the strings the claims
exercise are ASCII, where `Char.toLower` agrees with Python). -/
def pyLower (s : String) : String :=
  String.mk (s.toList.map Char.toLower)

/-- Python `str.strip()`: drop leading and trailing whitespace. -/
def pyStrip (s : String) : String :=
  String.mk (((s.toList.dropWhile Char.isWhitespace).reverse.dropWhile
    Char.isWhitespace).reverse)

/-- A clamped value `max 0 (min 10 x)` as computed by
`knowledge_base_write._update_metadata`. -/
def clamp10 (x : ℚ) : ℚ := max 0 (min 10 x)

/-- Dot product of two equal-length vectors, as in `np.dot` /
the zipped sum in `cosine_sim`. -/
def dotQ (a b : List ℚ) : ℚ :=
  ((a.zip b).map (fun p => p.1 * p.2)).sum

/-- First index attaining the maximum of a list (`np.argmax` semantics:
ties broken towards the earliest index) — the head wins exactly when it is
at least the best of the (nonempty) tail, so no phantom default score is
ever compared.  `0` on the empty list, a case `normalize_topic` never
reaches (it returns early when `existing_topics` is empty, and `np.argmax`
raises there).  `argmaxIdx_lt_length`, `argmaxIdx_is_max` and
`argmaxIdx_first_max` below check these semantics. -/
def argmaxIdx : List ℚ → Nat
  | [] => 0
  | [_] => 0
  | x :: y :: ys =>
    if (y :: ys).getD (argmaxIdx (y :: ys)) 0 ≤ x then 0
    else argmaxIdx (y :: ys) + 1

namespace Conversational

/-- `PolicyState` from `tutor_agent.py`: which policies are triggered
(`*_required`) and which have been discharged (`*_satisfied`), plus the
payload data (`kb_read_topic`, `fetch_urls`). -/
structure PolicyState where
  kb_read_required : Bool := false
  kb_read_satisfied : Bool := false
  kb_read_topic : String := ""
  kb_write_required : Bool := false
  kb_write_satisfied : Bool := false
  search_required : Bool := false
  search_satisfied : Bool := false
  fetch_required : Bool := false
  fetch_satisfied : Bool := false
  fetch_urls : List String := []
deriving Repr, DecidableEq

/-- `PolicyState.get_pending_policies`: unsatisfied policies in execution
order (FETCH, KB_READ, SEARCH, KB_WRITE), rendered as the same label
strings the Python code builds. -/
def PolicyState.get_pending_policies (s : PolicyState) : List String :=
  (if s.fetch_required && !s.fetch_satisfied then
    ["FETCH (urls: " ++ String.intercalate ", " s.fetch_urls ++ ")"] else []) ++
  (if s.kb_read_required && !s.kb_read_satisfied then
    ["KB_READ (topic: " ++ s.kb_read_topic ++ ")"] else []) ++
  (if s.search_required && !s.search_satisfied then ["SEARCH"] else []) ++
  (if s.kb_write_required && !s.kb_write_satisfied then ["KB_WRITE"] else [])

/-- `PolicyState.all_satisfied`. -/
def PolicyState.all_satisfied (s : PolicyState) : Bool :=
  !(s.kb_read_required && !s.kb_read_satisfied) &&
  !(s.kb_write_required && !s.kb_write_satisfied) &&
  !(s.search_required && !s.search_satisfied) &&
  !(s.fetch_required && !s.fetch_satisfied)

/-- `PolicyState.mark_satisfied`: flips satisfaction flags based on plain
substring tests against the executed tool code.  A flag that is already
`true` stays `true` (the Python method only ever sets flags). -/
def PolicyState.mark_satisfied (s : PolicyState) (tool_code : String) : PolicyState :=
  { s with
    kb_read_satisfied := s.kb_read_satisfied || containsSub tool_code "knowledge_base_read",
    kb_write_satisfied := s.kb_write_satisfied || containsSub tool_code "knowledge_base_write",
    search_satisfied := s.search_satisfied || containsSub tool_code "federated_search",
    fetch_satisfied := s.fetch_satisfied ||
      (containsSub tool_code "fetch" && containsSub tool_code "fetch.func") }

/-- One entry of the conversation history (`self.history`). -/
structure Msg where
  role : String
  content : String
deriving Repr, DecidableEq

/-- The dictionary returned by `unified_tool.execute_tool`: on success
`stdout`/`result` with no error key, on failure `stdout`/`error`.
`chat` reads the fields through `.get(key, '')`, so a missing key is
represented by the empty string; an error-shaped result is one with
`error ≠ ""`. -/
structure ExecResult where
  stdout : String := ""
  result : String := ""
  error : String := ""
deriving Repr, DecidableEq

/-- External collaborators of the chat loop: the LLM (called once per
iteration, here indexed by the running call count plus everything of the
session that feeds the prompt — the pending-policy list and the history)
and the tool executor `execute_tool`. -/
structure ChatEnv where
  llm : Nat → List String → List Msg → String
  exec : String → ExecResult

/-- The mutable state the `while` loop in `TutorAgent.chat` threads:
the conversation history and the per-turn policy state. -/
structure LoopState where
  history : List Msg
  policy : PolicyState
deriving Repr, DecidableEq

/-- Outcome of one iteration of the loop body: either `chat` returns
`answer` or the loop continues with an updated state. -/
inductive StepResult where
  | ret (answer : String) (st : LoopState)
  | cont (st : LoopState)
deriving Repr, DecidableEq

/-- The state carried by a `StepResult`. -/
def StepResult.state : StepResult → LoopState
  | .ret _ st => st
  | .cont st => st

/-- `TutorAgent._extract_code`: first `\x60\x60\x60python\n ... \n\x60\x60\x60`
fenced block (non-greedy, DOTALL), or `none`. -/
def extract_code (text : String) : Option String :=
  let cs := text.toList
  match firstOccur "```python\n".toList cs with
  | none => none
  | some i =>
    let rest := cs.drop (i + 10)
    match firstOccur "\n```".toList rest with
    | none => none
    | some j => some (String.mk (rest.take j))

/-- Python `repr` of a list of strings, as interpolated by the f-string
building the corrective reminder. -/
def pyListRepr (xs : List String) : String :=
  "[" ++ String.intercalate ", " (xs.map (fun s => "\x27" ++ s ++ "\x27")) ++ "]"

/-- The corrective system message injected when the LLM answers while
policies are still pending. -/
def reminderOf (remaining : List String) : String :=
  "SYSTEM: You cannot respond yet. Pending policies: " ++ pyListRepr remaining ++
    ". Output a code block."

/-- The give-up message returned when the loop bound is exhausted. -/
def STUCK_MSG : String := "I apologize, I got stuck. Let\x27s try again."

/-- `self.max_tool_turns` set in `TutorAgent.__init__`. -/
def max_tool_turns : Nat := 10

/-- One iteration of the `while tool_turn_count < self.max_tool_turns`
body of `TutorAgent.chat`: call the LLM, extract a code block; if present,
execute it, mark policies satisfied from the code text, append the
assistant/tool messages, and handle the post-response KB-write early
return; if absent, either inject the corrective reminder (policies
pending) or return the response (all satisfied).  The session-state
reload after a KB write only affects prompt rendering, which the `llm`
oracle already ranges over. -/
def chatStep (env : ChatEnv) (callIdx : Nat) (st : LoopState) : StepResult :=
  let pending := st.policy.get_pending_policies
  let response := env.llm callIdx pending st.history
  match extract_code response with
  | some code =>
    let tool_name :=
      if containsSub code "knowledge_base_read" then "KB_READ"
      else if containsSub code "knowledge_base_write" then "KB_WRITE"
      else if containsSub code "federated_search" then "SEARCH"
      else if containsSub code "fetch" then "FETCH"
      else "UNKNOWN"
    let exec_result := env.exec code
    let policy1 := st.policy.mark_satisfied code
    let tool_msg0 := "TOOL_RESULT (" ++ tool_name ++ "):\n" ++ exec_result.stdout ++
      "\n" ++ exec_result.result
    let tool_msg :=
      if exec_result.error ≠ "" then tool_msg0 ++ "\nError: " ++ exec_result.error
      else tool_msg0
    let history1 := st.history ++ [⟨"assistant", response⟩, ⟨"system", tool_msg⟩]
    if tool_name = "KB_WRITE" then
      match firstOccur "```python".toList response.toList with
      | some idx =>
        if 50 < idx then
          .ret (pyStrip (String.mk (response.toList.take idx))) ⟨history1, policy1⟩
        else .cont ⟨history1, policy1⟩
      | none => .cont ⟨history1, policy1⟩
    else .cont ⟨history1, policy1⟩
  | none =>
    let remaining := st.policy.get_pending_policies
    if remaining ≠ [] then
      .cont ⟨st.history ++ [⟨"system", reminderOf remaining⟩], st.policy⟩
    else
      .ret response ⟨st.history ++ [⟨"assistant", response⟩], st.policy⟩

/-- The bounded `while` loop of `TutorAgent.chat`.  `fuel` is the number
of tool-turns still allowed (`max_tool_turns - tool_turn_count`); `calls`
counts LLM invocations made so far and is returned alongside the answer
as instrumentation.  Every continuing branch of the Python body
increments `tool_turn_count` by exactly one, so one unit of fuel per
iteration is exact. -/
def chatLoop (env : ChatEnv) : Nat → Nat → LoopState → String × Nat
  | 0, calls, _ => (STUCK_MSG, calls)
  | fuel + 1, calls, st =>
    match chatStep env calls st with
    | .ret answer _ => (answer, calls + 1)
    | .cont st1 => chatLoop env fuel (calls + 1) st1

/-- `TutorAgent.chat` from the point where the per-turn `PolicyState` has
been produced by `PolicyDetector.analyze` (the detector itself is a pure
classifier whose output the claims quantify over): append the user
message and run the bounded loop.  Returns the answer together with the
number of LLM invocations made. -/
def chat (env : ChatEnv) (policy0 : PolicyState) (history0 : List Msg)
    (user_input : String) : String × Nat :=
  chatLoop env max_tool_turns 0 ⟨history0 ++ [⟨"user", user_input⟩], policy0⟩

end Conversational

namespace Normalizer

/-- `SIMILARITY_THRESHOLD = 0.75` from `topic_normalizer.py`. -/
def SIMILARITY_THRESHOLD : ℚ := 3 / 4

/-- The similarity row `np.dot(topic_embeddings, raw_embedding)` computed by
`normalize_topic`: every existing topic is embedded with the `passage: `
role tag, the raw phrase with the `query: ` role tag, and each passage
vector is dotted with the query vector.  `encode` is the embedding-model
oracle (`SentenceTransformer.encode` on a single text). -/
def passageSims (encode : String → List ℚ) (raw_topic : String)
    (existing_topics : List String) : List ℚ :=
  existing_topics.map (fun t =>
    dotQ (encode ("passage: " ++ t)) (encode ("query: " ++ raw_topic)))

/-- `normalize_topic` from `topic_normalizer.py`, with the embedding model
as an oracle.  Returns the `(canonical, matched, score)` triple together
with the number of embedding-model invocations made (`0` on the empty or
exact-match short-circuits, `2` otherwise: one query encode plus one
batched passage encode). -/
def normalize_topic (encode : String → List ℚ) (raw_topic : String)
    (existing_topics : List String) : (String × Option String × ℚ) × Nat :=
  if existing_topics = [] then ((raw_topic, none, 0), 0)
  else
    match existing_topics.find? (fun t => pyLower t == pyLower raw_topic) with
    | some t => ((t, some t, 1), 0)
    | none =>
      let similarities := passageSims encode raw_topic existing_topics
      let best_idx := argmaxIdx similarities
      let best_score := similarities.getD best_idx 0
      let best_match := existing_topics.getD best_idx ""
      if SIMILARITY_THRESHOLD ≤ best_score then
        ((best_match, some best_match, best_score), 2)
      else ((raw_topic, none, best_score), 2)

end Normalizer

/-- One entry of a Timeline Event's `changes` list, as built by
`_update_metadata` / `_log_event` in `knowledge_base_write.py`:
`{"field": k, "old": v1, "new": v2}`. -/
structure Change where
  field : String
  old : ℚ
  new : ℚ
deriving Repr, DecidableEq

/-- A Timeline Event as appended by `_log_event`. -/
structure Event where
  timestamp : String
  topic : String
  type : String
  changes : List Change
  reason : String
  source : String
deriving Repr, DecidableEq

namespace KBWrite

/-- One record of `kb_metadata.json`'s `topics` map. -/
structure TopicRecord where
  mastery : ℚ := 0
  confidence : ℚ := 0
  last_reviewed : Option String := none
  note_path : String := ""
deriving Repr, DecidableEq

/-- `kb_metadata.json` contents. -/
structure Metadata where
  updated_at : String := ""
  topics : List (String × TopicRecord) := []
deriving Repr, DecidableEq

/-- One record of the embeddings index `kb_index.json` as written by
`_write_note`. -/
structure IndexRec where
  id : String
  title : String
  note_path : String
  embedding : List ℚ
deriving Repr, DecidableEq

/-- The persistent state touched by `knowledge_base_write`: the metadata
file, the timeline file, the per-topic note files (keyed by filename) and
the embeddings index. -/
structure KBState where
  metadata : Metadata := {}
  timeline : List Event := []
  notes : List (String × String) := []
  kb_index : List IndexRec := []
deriving Repr, DecidableEq

/-- `slugify` from `knowledge_base_write.py`: lowercase, then replace the
single characters `" "` and `"/"` by `"-"` (character-level model of the
two `str.replace` calls on single-character patterns). -/
def slugify (text : String) : String :=
  String.mk ((pyLower text).toList.map (fun c =>
    if c = ' ' then '-' else if c = '/' then '-' else c))

/-- The record `_update_metadata` creates for a topic seen for the first
time (mastery = confidence = 0, `last_reviewed = None`). -/
def freshRecord (topic : String) : TopicRecord :=
  { mastery := 0, confidence := 0, last_reviewed := none,
    note_path := "knowledge_base/notes/" ++ slugify topic ++ ".md" }

/-- `_log_event`: append a single event record (with one `changes` entry
per changed field) to the timeline file. -/
def _log_event (topic : String) (changes : List Change) (reason source : String)
    (nowIso : String) (timeline : List Event) : List Event :=
  timeline ++ [{ timestamp := nowIso, topic := topic, type := "update",
                 changes := changes, reason := reason, source := source }]

/-- The `f"\x7bk\x7d: \x7bv1\x7d->\x7bv2\x7d"` rendering of a change used in the
returned `changes` list. -/
def changeStr (c : Change) : String :=
  c.field ++ ": " ++ toString c.old ++ "->" ++ toString c.new

/-- The dictionary `_update_metadata` returns. -/
structure UpdateResult where
  status : String
  topic : String
  changes : List String
  current_state : TopicRecord
deriving Repr, DecidableEq

/-- The `if mastery >= 0:` block of `_update_metadata`: clamp the input,
compare with the stored value, and record the mutation plus its change
entry.  A negative input is the documented skip sentinel. -/
def applyMastery (mastery : ℚ) (record : TopicRecord) : TopicRecord × List Change :=
  if 0 ≤ mastery then
    if record.mastery ≠ clamp10 mastery then
      ({ record with mastery := clamp10 mastery },
       [⟨"mastery", record.mastery, clamp10 mastery⟩])
    else (record, [])
  else (record, [])

/-- The `if confidence >= 0:` block of `_update_metadata`. -/
def applyConfidence (confidence : ℚ) (record : TopicRecord) : TopicRecord × List Change :=
  if 0 ≤ confidence then
    if record.confidence ≠ clamp10 confidence then
      ({ record with confidence := clamp10 confidence },
       [⟨"confidence", record.confidence, clamp10 confidence⟩])
    else (record, [])
  else (record, [])

/-- `_update_metadata` from `knowledge_base_write.py`: lazily create the
topic record, clamp and apply a non-negative mastery/confidence input
(negative inputs are the documented skip sentinel), stamp `last_reviewed`
and `updated_at` (the Python save guard `changes or topic in
metadata["topics"]` is always true because the topic was just ensured
present), and log one timeline event when there are changes or a
non-empty reason. -/
def _update_metadata (topic : String) (mastery confidence : ℚ)
    (reason source : String) (nowIso nowDate : String) (st : KBState) :
    KBState × UpdateResult :=
  let topics0 :=
    match lookupA st.metadata.topics topic with
    | some _ => st.metadata.topics
    | none => st.metadata.topics ++ [(topic, freshRecord topic)]
  let record0 := (lookupA topics0 topic).getD (freshRecord topic)
  let masteryStep := applyMastery mastery record0
  let confStep := applyConfidence confidence masteryStep.1
  let changes := masteryStep.2 ++ confStep.2
  let record1 :=
    if changes = [] then confStep.1
    else { confStep.1 with last_reviewed := some nowDate }
  let metadata1 : Metadata := { updated_at := nowIso, topics := setA topics0 topic record1 }
  let timeline1 :=
    if changes ≠ [] ∨ reason ≠ "" then
      _log_event topic changes reason source nowIso st.timeline
    else st.timeline
  ({ st with metadata := metadata1, timeline := timeline1 },
   { status := "success", topic := topic, changes := changes.map changeStr,
     current_state := record1 })

/-- `_ensure_metadata_path`: if the topic exists in the metadata and its
`note_path` differs, rewrite it (and `updated_at`); otherwise leave the
metadata as is.  The try/except swallows failures, so the function is
total. -/
def _ensure_metadata_path (topic note_path : String) (nowIso : String)
    (md : Metadata) : Metadata :=
  match lookupA md.topics topic with
  | none => md
  | some r =>
    if r.note_path ≠ note_path then
      { updated_at := nowIso, topics := setA md.topics topic { r with note_path := note_path } }
    else md

/-- The dictionary `_write_note` returns. -/
structure NoteResult where
  status : String
  file : String
  size : Nat
  embeddings_updated : Bool
deriving Repr, DecidableEq

/-- `_write_note` from `knowledge_base_write.py`: write (append with a
blank-line separator, or replace) the note file, re-embed the full note
content, update or append the embeddings-index record, and fix up the
metadata's `note_path`.  `embed` is the `get_embedding` oracle. -/
def _write_note (topic content mode : String) (embed : String → List ℚ)
    (nowIso : String) (st : KBState) : KBState × NoteResult :=
  let slug := slugify topic
  let filename := slug ++ ".md"
  let newContent :=
    if mode = "replace" then content
    else
      match lookupA st.notes filename with
      | some existing => existing ++ "\n\n" ++ content
      | none => content
  let notes1 := setA st.notes filename newContent
  let full_text := newContent
  let embedding := embed full_text
  let note_path := "knowledge_base/notes/" ++ filename
  let kb_index1 :=
    match st.kb_index.find? (fun item => item.title == topic) with
    | some _ =>
      st.kb_index.map (fun item =>
        if item.title == topic then
          { item with embedding := embedding, note_path := note_path }
        else item)
    | none =>
      st.kb_index ++ [{ id := slug, title := topic, note_path := note_path,
                        embedding := embedding }]
  let metadata1 := _ensure_metadata_path topic note_path nowIso st.metadata
  ({ st with notes := notes1, kb_index := kb_index1, metadata := metadata1 },
   { status := "success", file := filename, size := full_text.length,
     embeddings_updated := true })

/-- The dictionary `knowledge_base_write` returns. -/
structure WriteResult where
  metadata_update : UpdateResult
  note_write : Option NoteResult
deriving Repr, DecidableEq

/-- `knowledge_base_write` from `knowledge_base_write.py`: always run
`_update_metadata`; run `_write_note` only when a non-empty note is
supplied (Python truthiness of `note`). -/
def knowledge_base_write (topic : String) (mastery confidence : ℚ)
    (reason source note mode : String) (embed : String → List ℚ)
    (nowIso nowDate : String) (st : KBState) : KBState × WriteResult :=
  let mu := _update_metadata topic mastery confidence reason source nowIso nowDate st
  if note ≠ "" then
    let nw := _write_note topic note mode embed nowIso mu.1
    (nw.1, { metadata_update := mu.2, note_write := some nw.2 })
  else (mu.1, { metadata_update := mu.2, note_write := none })

/-- The record a write call starts from: the stored record of `topic`, or
the lazily created fresh record when the topic does not exist yet. -/
def r0Of (st : KBState) (topic : String) : TopicRecord :=
  (lookupA st.metadata.topics topic).getD (freshRecord topic)

/-- The `changes` list accumulated by `_update_metadata` for the given
state and inputs. -/
def changesOf (st : KBState) (topic : String) (m c : ℚ) : List Change :=
  (applyMastery m (r0Of st topic)).2 ++ (applyConfidence c (applyMastery m (r0Of st topic)).1).2

/-- The topic record as stored by `_update_metadata` (with `last_reviewed`
stamped exactly when some field changed). -/
def recordAfter (st : KBState) (topic : String) (m c : ℚ) (nowDate : String) :
    TopicRecord :=
  if changesOf st topic m c = [] then
    (applyConfidence c (applyMastery m (r0Of st topic)).1).1
  else
    { (applyConfidence c (applyMastery m (r0Of st topic)).1).1 with
      last_reviewed := some nowDate }

end KBWrite

/-- A stored record for the topic `"Chess"` used by concrete instances. -/
def chessRec : KBWrite.TopicRecord :=
  { mastery := 5, confidence := 5, last_reviewed := some "2025-01-01",
    note_path := "knowledge_base/notes/chess.md" }

/-- A knowledge-base state holding only the `"Chess"` topic. -/
def st3 : KBWrite.KBState :=
  { metadata := { updated_at := "", topics := [("Chess", chessRec)] },
    timeline := [], notes := [], kb_index := [] }

/-- A trivial embedding oracle for concrete instances. -/
def embedW : String → List ℚ := fun _ => []

namespace KBRead

/-- Observable states of a JSON-backed file as distinguished by
`_read_profile`: absent, unparseable (`json.JSONDecodeError` or any other
exception while reading), parseable but of the wrong top-level shape
(the `isinstance(..., list)` checks), or well-shaped content. -/
inductive FileJson (α : Type) where
  | missing
  | malformed
  | wrongType
  | ok (a : α)
deriving Repr, DecidableEq

/-- One record of `kb_index.json` as consumed by `_read_profile`
(every field is read through `.get(...)`, so each is optional). -/
structure IndexEntry where
  title : Option String := none
  mastery : Option ℚ := none
  confidence : Option ℚ := none
  last_reviewed : Option String := none
  note_path : Option String := none
deriving Repr, DecidableEq

/-- One entry of the `topics` map `_read_profile` builds. -/
structure ProfileTopic where
  mastery : ℚ
  confidence : ℚ
  last_reviewed : Option String
  note_path : Option String
deriving Repr, DecidableEq

/-- The dictionary `_read_profile` returns. -/
structure ReadProfileResult where
  topics : List (String × ProfileTopic)
  recent_events : List Event
  status : String
  message : Option String
deriving Repr, DecidableEq

/-- `_read_profile` from `knowledge_base_read.py`: total on every backing
state.  Index phase: missing file → `partial`, malformed → `error`,
non-list → `error`, list → build the topics map (entries without a title
are skipped).  Timeline phase: missing → `partial`/`error` escalation,
malformed → `error`, non-list → empty events and a message with the
status left as is (the source appends the message without touching
`status` in that branch), list → sort by timestamp most-recent-first
(stable) and keep the first 10. -/
def _read_profile (idx : FileJson (List IndexEntry))
    (tl : FileJson (List Event)) : ReadProfileResult :=
  let idxPhase : List (String × ProfileTopic) × String × List String :=
    match idx with
    | .missing => ([], "partial", ["KB Index file not found"])
    | .malformed => ([], "error", ["KB Index JSON is malformed"])
    | .wrongType => ([], "error", ["KB Index is not a list"])
    | .ok entries =>
      (entries.foldl (fun acc e =>
        match e.title with
        | some t =>
          setA acc t { mastery := e.mastery.getD 0, confidence := e.confidence.getD 0,
                       last_reviewed := e.last_reviewed, note_path := e.note_path }
        | none => acc) [], "success", [])
  let tlPhase : List Event × String × List String :=
    match tl with
    | .missing =>
      ([], if idxPhase.2.1 = "success" then "partial" else "error",
       ["Timeline file not found"])
    | .malformed => ([], "error", ["Timeline JSON is malformed"])
    | .wrongType => ([], idxPhase.2.1, ["Timeline data is not a list, returning empty"])
    | .ok evs =>
      ((evs.mergeSort (fun a b => decide (b.timestamp ≤ a.timestamp))).take 10,
       idxPhase.2.1, [])
  let msgs := idxPhase.2.2 ++ tlPhase.2.2
  { topics := idxPhase.1, recent_events := tlPhase.1, status := tlPhase.2.1,
    message := if msgs = [] then none else some (String.intercalate "; " msgs) }

end KBRead

/-! ## Concrete instances used by witnesses and counterexamples -/

namespace Conversational

/-- A fetch invocation written without the literal text `fetch.func`. -/
def codeDirectFetch : String :=
  "from tools.fetch import fetch\nresult = fetch(\"https://example.com\")\nprint(result)"

/-- An LLM response embedding a federated-search tool call. -/
def respSearch : String :=
  "```python\nfrom tools.federated_search import federated_search\nresult = federated_search.func(\"agentic ai news\")\nprint(result)\n```"

/-- The code block inside `respSearch`. -/
def codeSearch : String :=
  "from tools.federated_search import federated_search\nresult = federated_search.func(\"agentic ai news\")\nprint(result)"

/-- Environment whose tool executor always fails (error-shaped result). -/
def envErr : ChatEnv :=
  ⟨fun _ _ _ => respSearch,
   fun _ => { stdout := "", result := "", error := "Traceback: provider unreachable" }⟩

/-- Environment with the same LLM whose tool executor succeeds. -/
def envOk : ChatEnv :=
  ⟨fun _ _ _ => respSearch,
   fun _ => { stdout := "3 results\n", result := "None", error := "" }⟩

/-- Loop state with a pending search obligation. -/
def stSearch : LoopState :=
  ⟨[⟨"user", "any recent agentic ai news?"⟩], { search_required := true }⟩

/-- An LLM that always answers in plain text, with an inert tool executor. -/
def envPlain : ChatEnv :=
  ⟨fun _ _ _ => "Here is a direct answer without any tool call.", fun _ => {}⟩

/-- A policy state with only the write obligation triggered. -/
def polWrite : PolicyState := { kb_write_required := true }

/-- An LLM that always answers in plain prose, with an inert executor. -/
def envChat1 : ChatEnv :=
  ⟨fun _ _ _ => "Practice a little every day.", fun _ => {}⟩

/-- A loop state with one user message and a pending write obligation. -/
def st1W : LoopState := ⟨[⟨"user", "hello"⟩], polWrite⟩

/-- An LLM that always returns the same plain-text answer. -/
def envRefuse : ChatEnv :=
  ⟨fun _ _ _ => "You should practice problems daily.", fun _ => {}⟩

end Conversational

namespace Normalizer

/-- An embedding oracle whose single passage scores exactly `3/4` against
the query. -/
def encBoundary : String → List ℚ := fun s =>
  if s = "query: chess openings" then [1, 0]
  else if s = "passage: Chess" then [3 / 4, 0] else [0, 0]

end Normalizer

namespace KBRead

/-- An index entry as a healthy backing state for the counterexample. -/
def idxChess : IndexEntry := { title := some "Chess", mastery := some 5 }

end KBRead

/-! ## Helper lemmas -/

theorem leadsChars_of_append (p q : List Char) :
    ∀ s, leadsChars (p ++ q) s = true → leadsChars p s = true := by
  induction p with
  | nil => intro s _; rfl
  | cons a as ih =>
    intro s h
    cases s with
    | nil => simp [leadsChars] at h
    | cons c cs =>
      simp only [List.cons_append, leadsChars, Bool.and_eq_true] at h ⊢
      exact ⟨h.1, ih cs h.2⟩

theorem occursWithin_of_append (p q : List Char) :
    ∀ s, occursWithin (p ++ q) s = true → occursWithin p s = true := by
  intro s
  induction s with
  | nil =>
    intro h
    simp only [occursWithin] at h ⊢
    cases p with
    | nil => rfl
    | cons a as => simp [leadsChars] at h
  | cons c cs ih =>
    intro h
    simp only [occursWithin, Bool.or_eq_true] at h ⊢
    rcases h with h | h
    · exact Or.inl (leadsChars_of_append p q _ h)
    · exact Or.inr (ih h)

theorem containsSub_fetch_of_func (code : String)
    (h : containsSub code "fetch.func" = true) : containsSub code "fetch" = true := by
  have : "fetch.func".toList = "fetch".toList ++ ".func".toList := by decide
  unfold containsSub at h ⊢
  rw [this] at h
  exact occursWithin_of_append _ _ _ h

theorem lookupA_setA {α : Type} (l : List (String × α)) (k k' : String) (v : α) :
    lookupA (setA l k v) k' = if k = k' then some v else lookupA l k' := by
  induction l with
  | nil => by_cases h : k = k' <;> simp [setA, lookupA, h]
  | cons hd tl ih =>
    obtain ⟨k0, v0⟩ := hd
    by_cases h0 : k0 = k
    · subst h0
      by_cases h : k0 = k' <;> simp [setA, lookupA, h]
    · have hkk : k ≠ k0 := fun he => h0 he.symm
      by_cases h : k0 = k'
      · subst h
        have hne : k ≠ k0 := hkk
        simp [setA, lookupA, h0, hne]
      · simp [setA, lookupA, h0, h, ih]

theorem lookupA_append {α : Type} (l1 l2 : List (String × α)) (k : String) :
    lookupA (l1 ++ l2) k =
      match lookupA l1 k with
      | some v => some v
      | none => lookupA l2 k := by
  induction l1 with
  | nil => simp [lookupA]
  | cons hd tl ih =>
    obtain ⟨k0, v0⟩ := hd
    by_cases h : k0 = k <;> simp [lookupA, h, ih]

theorem argmaxIdx_lt_length (l : List ℚ) (h : l ≠ []) : argmaxIdx l < l.length := by
  induction l with
  | nil => exact absurd rfl h
  | cons x xs ih =>
    cases xs with
    | nil => simp [argmaxIdx]
    | cons y ys =>
      rw [argmaxIdx]
      split
      · simp
      · have := ih (by simp)
        simpa [Nat.succ_lt_succ_iff] using this

theorem argmaxIdx_is_max (l : List ℚ) :
    ∀ i, i < l.length → l.getD i 0 ≤ l.getD (argmaxIdx l) 0 := by
  induction l with
  | nil => intro i hi; simp at hi
  | cons x xs ih =>
    cases xs with
    | nil =>
      intro i hi
      simp only [List.length_cons, List.length_nil] at hi
      have hi0 : i = 0 := by omega
      subst hi0
      simp [argmaxIdx]
    | cons y ys =>
      intro i hi
      rw [argmaxIdx]
      split
      · rename_i hx
        cases i with
        | zero => simp
        | succ i' =>
          simp only [List.getD_cons_succ, List.getD_cons_zero]
          exact le_trans (ih i' (by simpa using hi)) hx
      · rename_i hx
        cases i with
        | zero =>
          simp only [List.getD_cons_succ, List.getD_cons_zero]
          exact le_of_lt (not_le.mp hx)
        | succ i' =>
          simp only [List.getD_cons_succ]
          exact ih i' (by simpa using hi)

theorem argmaxIdx_first_max (l : List ℚ) :
    ∀ i, i < argmaxIdx l → l.getD i 0 < l.getD (argmaxIdx l) 0 := by
  induction l with
  | nil => intro i hi; simp [argmaxIdx] at hi
  | cons x xs ih =>
    cases xs with
    | nil => intro i hi; simp [argmaxIdx] at hi
    | cons y ys =>
      intro i hi
      rw [argmaxIdx] at hi ⊢
      split
      · rename_i hx
        rw [if_pos hx] at hi
        simp at hi
      · rename_i hx
        rw [if_neg hx] at hi
        cases i with
        | zero =>
          simp only [List.getD_cons_succ, List.getD_cons_zero]
          exact not_le.mp hx
        | succ i' =>
          simp only [List.getD_cons_succ]
          exact ih i' (by omega)

theorem clamp10_nonneg (x : ℚ) : 0 ≤ clamp10 x := le_max_left 0 _

theorem clamp10_le_ten (x : ℚ) : clamp10 x ≤ 10 :=
  max_le (by norm_num) (min_le_left _ _)

theorem clamp10_eq_self (x : ℚ) (h1 : 0 ≤ x) (h2 : x ≤ 10) : clamp10 x = x := by
  unfold clamp10
  rw [min_eq_right h2]
  exact max_eq_right h1

namespace KBWrite

theorem applyMastery_of_neg (m : ℚ) (r : TopicRecord) (h : m < 0) :
    applyMastery m r = (r, []) := by
  unfold applyMastery
  rw [if_neg (not_le.mpr h)]

theorem applyMastery_of_eq (m : ℚ) (r : TopicRecord) (h : r.mastery = clamp10 m) :
    applyMastery m r = (r, []) := by
  unfold applyMastery
  by_cases h0 : 0 ≤ m
  · rw [if_pos h0, if_neg (by simp [h])]
  · rw [if_neg h0]

theorem applyMastery_of_ne (m : ℚ) (r : TopicRecord) (h0 : 0 ≤ m)
    (h : r.mastery ≠ clamp10 m) :
    applyMastery m r =
      ({ r with mastery := clamp10 m }, [⟨"mastery", r.mastery, clamp10 m⟩]) := by
  unfold applyMastery
  rw [if_pos h0, if_pos h]

theorem applyMastery_fst_mastery_of_nonneg (m : ℚ) (r : TopicRecord) (h : 0 ≤ m) :
    (applyMastery m r).1.mastery = clamp10 m := by
  by_cases h2 : r.mastery = clamp10 m
  · rw [applyMastery_of_eq m r h2]
    exact h2
  · rw [applyMastery_of_ne m r h h2]

theorem applyMastery_fst_confidence (m : ℚ) (r : TopicRecord) :
    (applyMastery m r).1.confidence = r.confidence := by
  unfold applyMastery
  repeat' split
  all_goals rfl

theorem applyMastery_fst_last_reviewed (m : ℚ) (r : TopicRecord) :
    (applyMastery m r).1.last_reviewed = r.last_reviewed := by
  unfold applyMastery
  repeat' split
  all_goals rfl

theorem applyConfidence_of_neg (c : ℚ) (r : TopicRecord) (h : c < 0) :
    applyConfidence c r = (r, []) := by
  unfold applyConfidence
  rw [if_neg (not_le.mpr h)]

theorem applyConfidence_of_eq (c : ℚ) (r : TopicRecord) (h : r.confidence = clamp10 c) :
    applyConfidence c r = (r, []) := by
  unfold applyConfidence
  by_cases h0 : 0 ≤ c
  · rw [if_pos h0, if_neg (by simp [h])]
  · rw [if_neg h0]

theorem applyConfidence_of_ne (c : ℚ) (r : TopicRecord) (h0 : 0 ≤ c)
    (h : r.confidence ≠ clamp10 c) :
    applyConfidence c r =
      ({ r with confidence := clamp10 c }, [⟨"confidence", r.confidence, clamp10 c⟩]) := by
  unfold applyConfidence
  rw [if_pos h0, if_pos h]

theorem applyConfidence_fst_confidence_of_nonneg (c : ℚ) (r : TopicRecord) (h : 0 ≤ c) :
    (applyConfidence c r).1.confidence = clamp10 c := by
  by_cases h2 : r.confidence = clamp10 c
  · rw [applyConfidence_of_eq c r h2]
    exact h2
  · rw [applyConfidence_of_ne c r h h2]

theorem applyConfidence_fst_mastery (c : ℚ) (r : TopicRecord) :
    (applyConfidence c r).1.mastery = r.mastery := by
  unfold applyConfidence
  repeat' split
  all_goals rfl

theorem applyConfidence_fst_last_reviewed (c : ℚ) (r : TopicRecord) :
    (applyConfidence c r).1.last_reviewed = r.last_reviewed := by
  unfold applyConfidence
  repeat' split
  all_goals rfl

theorem applyMastery_snd (m : ℚ) (r : TopicRecord) :
    (applyMastery m r).2 =
      if 0 ≤ m ∧ r.mastery ≠ clamp10 m then [⟨"mastery", r.mastery, clamp10 m⟩]
      else [] := by
  unfold applyMastery
  by_cases h0 : 0 ≤ m
  · by_cases h : r.mastery ≠ clamp10 m <;> simp [h0, h]
  · simp [h0]

theorem applyConfidence_snd (c : ℚ) (r : TopicRecord) :
    (applyConfidence c r).2 =
      if 0 ≤ c ∧ r.confidence ≠ clamp10 c then [⟨"confidence", r.confidence, clamp10 c⟩]
      else [] := by
  unfold applyConfidence
  by_cases h0 : 0 ≤ c
  · by_cases h : r.confidence ≠ clamp10 c <;> simp [h0, h]
  · simp [h0]

/-- The accumulated `changes` list holds exactly one entry per changed
field: the mastery entry when a non-negative mastery input differs (after
clamping) from the stored value, and likewise for confidence. -/
theorem changesOf_entry_per_changed_field (st : KBState) (topic : String) (m c : ℚ) :
    changesOf st topic m c =
      (if 0 ≤ m ∧ (r0Of st topic).mastery ≠ clamp10 m then
        [⟨"mastery", (r0Of st topic).mastery, clamp10 m⟩] else [])
      ++ (if 0 ≤ c ∧ (r0Of st topic).confidence ≠ clamp10 c then
        [⟨"confidence", (r0Of st topic).confidence, clamp10 c⟩] else []) := by
  unfold changesOf
  rw [applyMastery_snd, applyConfidence_snd, applyMastery_fst_confidence]

theorem lookupA_lazy_create (l : List (String × TopicRecord)) (topic : String) :
    (lookupA (match lookupA l topic with
              | some _ => l
              | none => l ++ [(topic, freshRecord topic)]) topic).getD (freshRecord topic)
      = (lookupA l topic).getD (freshRecord topic) := by
  cases h : lookupA l topic with
  | some r => simp [h]
  | none => rw [lookupA_append]; simp [h, lookupA]

theorem update_metadata_stored (topic : String) (m c : ℚ)
    (reason source nowIso nowDate : String) (st : KBState) :
    lookupA (_update_metadata topic m c reason source nowIso nowDate st).1.metadata.topics
        topic = some (recordAfter st topic m c nowDate) := by
  unfold _update_metadata recordAfter changesOf r0Of
  dsimp only
  rw [lookupA_lazy_create]
  simp [lookupA_setA]

theorem update_metadata_timeline (topic : String) (m c : ℚ)
    (reason source nowIso nowDate : String) (st : KBState) :
    (_update_metadata topic m c reason source nowIso nowDate st).1.timeline =
      (if changesOf st topic m c ≠ [] ∨ reason ≠ "" then
        _log_event topic (changesOf st topic m c) reason source nowIso st.timeline
      else st.timeline) := by
  unfold _update_metadata changesOf r0Of
  dsimp only
  rw [lookupA_lazy_create]

theorem recordAfter_mastery (st : KBState) (topic : String) (m c : ℚ) (nowDate : String) :
    (recordAfter st topic m c nowDate).mastery
      = (applyConfidence c (applyMastery m (r0Of st topic)).1).1.mastery := by
  unfold recordAfter
  split <;> rfl

theorem recordAfter_confidence (st : KBState) (topic : String) (m c : ℚ)
    (nowDate : String) :
    (recordAfter st topic m c nowDate).confidence
      = (applyConfidence c (applyMastery m (r0Of st topic)).1).1.confidence := by
  unfold recordAfter
  split <;> rfl

theorem ensure_path_fields (topic p nowIso : String) (md : Metadata) (t : String) :
    (((lookupA (_ensure_metadata_path topic p nowIso md).topics t).getD
        (freshRecord t)).mastery = ((lookupA md.topics t).getD (freshRecord t)).mastery)
    ∧ (((lookupA (_ensure_metadata_path topic p nowIso md).topics t).getD
        (freshRecord t)).confidence = ((lookupA md.topics t).getD (freshRecord t)).confidence)
    ∧ (((lookupA (_ensure_metadata_path topic p nowIso md).topics t).getD
        (freshRecord t)).last_reviewed
        = ((lookupA md.topics t).getD (freshRecord t)).last_reviewed) := by
  unfold _ensure_metadata_path
  cases h : lookupA md.topics topic with
  | none => exact ⟨rfl, rfl, rfl⟩
  | some r =>
    dsimp only
    by_cases hne : r.note_path ≠ p
    · rw [if_pos hne]
      by_cases ht : topic = t
      · subst ht
        simp [lookupA_setA, h]
      · simp [lookupA_setA, ht]
    · rw [if_neg hne]
      exact ⟨rfl, rfl, rfl⟩

theorem write_note_metadata (topic content mode : String) (embed : String → List ℚ)
    (nowIso : String) (st : KBState) :
    (_write_note topic content mode embed nowIso st).1.metadata
      = _ensure_metadata_path topic ("knowledge_base/notes/" ++ (slugify topic ++ ".md"))
          nowIso st.metadata := rfl

theorem write_note_timeline (topic content mode : String) (embed : String → List ℚ)
    (nowIso : String) (st : KBState) :
    (_write_note topic content mode embed nowIso st).1.timeline = st.timeline := rfl

theorem kbw_state (topic : String) (m c : ℚ) (reason source note mode : String)
    (embed : String → List ℚ) (nowIso nowDate : String) (st : KBState) :
    (knowledge_base_write topic m c reason source note mode embed nowIso nowDate st).1
      = (if note ≠ "" then
          (_write_note topic note mode embed nowIso
            (_update_metadata topic m c reason source nowIso nowDate st).1).1
        else (_update_metadata topic m c reason source nowIso nowDate st).1) := by
  unfold knowledge_base_write
  by_cases h : note ≠ "" <;> simp [h]

/-- The three profile fields of the stored record after a full
`knowledge_base_write` coincide with those of `recordAfter` (the note
phase only ever rewrites `note_path`). -/
theorem kbw_stored_fields (topic : String) (m c : ℚ) (reason source note mode : String)
    (embed : String → List ℚ) (nowIso nowDate : String) (st : KBState) :
    (((lookupA (knowledge_base_write topic m c reason source note mode embed nowIso nowDate
        st).1.metadata.topics topic).getD (freshRecord topic)).mastery
      = (recordAfter st topic m c nowDate).mastery)
    ∧ (((lookupA (knowledge_base_write topic m c reason source note mode embed nowIso nowDate
        st).1.metadata.topics topic).getD (freshRecord topic)).confidence
      = (recordAfter st topic m c nowDate).confidence)
    ∧ (((lookupA (knowledge_base_write topic m c reason source note mode embed nowIso nowDate
        st).1.metadata.topics topic).getD (freshRecord topic)).last_reviewed
      = (recordAfter st topic m c nowDate).last_reviewed) := by
  rw [kbw_state]
  by_cases h : note ≠ ""
  · rw [if_pos h, write_note_metadata]
    obtain ⟨e1, e2, e3⟩ := ensure_path_fields topic
      ("knowledge_base/notes/" ++ (slugify topic ++ ".md")) nowIso
      (_update_metadata topic m c reason source nowIso nowDate st).1.metadata topic
    rw [e1, e2, e3, update_metadata_stored]
    exact ⟨rfl, rfl, rfl⟩
  · rw [if_neg h, update_metadata_stored]
    exact ⟨rfl, rfl, rfl⟩

theorem kbw_timeline (topic : String) (m c : ℚ) (reason source note mode : String)
    (embed : String → List ℚ) (nowIso nowDate : String) (st : KBState) :
    (knowledge_base_write topic m c reason source note mode embed nowIso nowDate st).1.timeline
      = (if changesOf st topic m c ≠ [] ∨ reason ≠ "" then
          _log_event topic (changesOf st topic m c) reason source nowIso st.timeline
        else st.timeline) := by
  rw [kbw_state]
  by_cases h : note ≠ ""
  · rw [if_pos h, write_note_timeline, update_metadata_timeline]
  · rw [if_neg h, update_metadata_timeline]

end KBWrite

namespace Conversational

theorem chatStep_no_code (env : ChatEnv) (c : Nat) (st : LoopState)
    (hcode : extract_code (env.llm c st.policy.get_pending_policies st.history) = none)
    (hp : st.policy.get_pending_policies ≠ []) :
    chatStep env c st =
      .cont ⟨st.history ++ [⟨"system", reminderOf st.policy.get_pending_policies⟩],
             st.policy⟩ := by
  unfold chatStep
  simp only [hcode, hp, if_pos, ne_eq, not_false_eq_true]

theorem chatLoop_stuck_of_no_code (env : ChatEnv)
    (hllm : ∀ i p h, extract_code (env.llm i p h) = none) :
    ∀ (fuel calls : Nat) (st : LoopState), st.policy.get_pending_policies ≠ [] →
      chatLoop env fuel calls st = (STUCK_MSG, calls + fuel) := by
  intro fuel
  induction fuel with
  | zero => intro calls st _; simp [chatLoop]
  | succ f ih =>
    intro calls st hp
    have hstep := chatStep_no_code env calls st (hllm _ _ _) hp
    rw [chatLoop, hstep]
    show chatLoop env f (calls + 1) _ = _
    rw [show calls + (f + 1) = (calls + 1) + f from by omega]
    exact ih (calls + 1) _ hp

theorem chatLoop_calls_ge (env : ChatEnv) :
    ∀ (fuel calls : Nat) (st : LoopState), calls ≤ (chatLoop env fuel calls st).2 := by
  intro fuel
  induction fuel with
  | zero => intro calls st; simp [chatLoop]
  | succ f ih =>
    intro calls st
    rw [chatLoop]
    cases chatStep env calls st with
    | ret answer st1 => simp
    | cont st1 => exact Nat.le_trans (Nat.le_succ calls) (ih (calls + 1) st1)

theorem chatLoop_calls_ge_succ (env : ChatEnv) (fuel calls : Nat) (st : LoopState) :
    calls + 1 ≤ (chatLoop env (fuel + 1) calls st).2 := by
  rw [chatLoop]
  cases chatStep env calls st with
  | ret answer st1 => simp
  | cont st1 => exact chatLoop_calls_ge env fuel (calls + 1) st1

theorem chatStep_code_policy (env : ChatEnv) (c : Nat) (st : LoopState) (code : String)
    (h : extract_code (env.llm c st.policy.get_pending_policies st.history) = some code) :
    (chatStep env c st).state.policy = st.policy.mark_satisfied code := by
  unfold chatStep
  simp only [h]
  repeat' split
  all_goals rfl

end Conversational

/-! ## Claim theorems -/

namespace Conversational

/-- C10: `mark_satisfied` decides every obligation by plain substring tests on
the executed code text: the fetch flag is set exactly when the code contains
both `"fetch"` and `"fetch.func"` (which collapses to containing
`"fetch.func"`, since the latter contains the former — so a direct `fetch(...)`
call without the literal `fetch.func` never satisfies the fetch obligation),
while the read/write/search flags are set by mere presence of
`"knowledge_base_read"` / `"knowledge_base_write"` / `"federated_search"`. -/
theorem mark_satisfied_by_substring (st : PolicyState) (code : String)
    (h1 : st.kb_read_satisfied = false) (h2 : st.kb_write_satisfied = false)
    (h3 : st.search_satisfied = false) (h4 : st.fetch_satisfied = false) :
    ((st.mark_satisfied code).fetch_satisfied
        = (containsSub code "fetch" && containsSub code "fetch.func"))
    ∧ ((st.mark_satisfied code).fetch_satisfied = containsSub code "fetch.func")
    ∧ ((st.mark_satisfied code).kb_read_satisfied = containsSub code "knowledge_base_read")
    ∧ ((st.mark_satisfied code).kb_write_satisfied = containsSub code "knowledge_base_write")
    ∧ ((st.mark_satisfied code).search_satisfied = containsSub code "federated_search") := by
  have hcollapse : (containsSub code "fetch" && containsSub code "fetch.func")
      = containsSub code "fetch.func" := by
    cases hf : containsSub code "fetch.func"
    · simp
    · simp [containsSub_fetch_of_func code hf]
  refine ⟨?_, ?_, ?_, ?_, ?_⟩
  · simp [PolicyState.mark_satisfied, h4]
  · simp [PolicyState.mark_satisfied, h4, hcollapse]
  · simp [PolicyState.mark_satisfied, h1]
  · simp [PolicyState.mark_satisfied, h2]
  · simp [PolicyState.mark_satisfied, h3]

/-- C10 witness: `mark_satisfied_by_substring` applied to the all-fresh policy
state and a direct `fetch(...)` call. -/
theorem mark_satisfied_by_substring_witness :
    ((({} : PolicyState).mark_satisfied codeDirectFetch).fetch_satisfied
        = (containsSub codeDirectFetch "fetch" && containsSub codeDirectFetch "fetch.func"))
    ∧ ((({} : PolicyState).mark_satisfied codeDirectFetch).fetch_satisfied
        = containsSub codeDirectFetch "fetch.func")
    ∧ ((({} : PolicyState).mark_satisfied codeDirectFetch).kb_read_satisfied
        = containsSub codeDirectFetch "knowledge_base_read")
    ∧ ((({} : PolicyState).mark_satisfied codeDirectFetch).kb_write_satisfied
        = containsSub codeDirectFetch "knowledge_base_write")
    ∧ ((({} : PolicyState).mark_satisfied codeDirectFetch).search_satisfied
        = containsSub codeDirectFetch "federated_search") :=
  mark_satisfied_by_substring {} codeDirectFetch rfl rfl rfl rfl

/-- C9: when the LLM response carries a tool-code block, the policy state
after the loop iteration is `mark_satisfied code` — computed from the
executed code text alone — for any tool executor whatsoever; in particular
two executors that agree on the LLM side (one returning an error-shaped
result, one a successful result) leave the obligations in exactly the same
state, so an error result cannot cause an obligation to be retried. -/
theorem error_result_still_satisfies_obligation (env env' : ChatEnv) (c : Nat)
    (st : LoopState) (code : String) (hllm : env'.llm = env.llm)
    (hcode : extract_code (env.llm c st.policy.get_pending_policies st.history) = some code) :
    (chatStep env c st).state.policy = st.policy.mark_satisfied code ∧
    (chatStep env' c st).state.policy = st.policy.mark_satisfied code := by
  refine ⟨chatStep_code_policy env c st code hcode, ?_⟩
  apply chatStep_code_policy
  rw [hllm]
  exact hcode

set_option maxRecDepth 4000 in
/-- C9 witness: `error_result_still_satisfies_obligation` applied to a failing
and a succeeding executor for the same search tool call. -/
theorem error_result_still_satisfies_obligation_witness :
    (chatStep envErr 0 stSearch).state.policy = stSearch.policy.mark_satisfied codeSearch ∧
    (chatStep envOk 0 stSearch).state.policy = stSearch.policy.mark_satisfied codeSearch := by
  have hresp : extract_code respSearch = some codeSearch := by decide
  exact error_result_still_satisfies_obligation envErr envOk 0 stSearch codeSearch rfl hresp

/-- C2: with an LLM that never emits a tool-code block (so no obligation is
ever marked satisfied) and a nonempty triggered-obligation set, `chat`
returns the generic stuck message after exactly `max_tool_turns = 10` LLM
invocations, not more. -/
theorem chat_returns_stuck_after_exactly_max_turns (env : ChatEnv) (pol : PolicyState)
    (hist : List Msg) (input : String)
    (hllm : ∀ i p h, extract_code (env.llm i p h) = none)
    (hp : pol.get_pending_policies ≠ []) :
    chat env pol hist input = (STUCK_MSG, 10) ∧ max_tool_turns = 10 := by
  refine ⟨?_, rfl⟩
  unfold chat
  exact chatLoop_stuck_of_no_code env hllm max_tool_turns 0 _ hp

/-- C2 witness: `chat_returns_stuck_after_exactly_max_turns` on a concrete
never-calling LLM and a pending write obligation. -/
theorem chat_returns_stuck_after_exactly_max_turns_witness :
    chat envPlain polWrite [] "teach me recursion" = (STUCK_MSG, 10) ∧ max_tool_turns = 10 := by
  have hplain : extract_code "Here is a direct answer without any tool call." = none := by
    decide
  exact chat_returns_stuck_after_exactly_max_turns envPlain polWrite [] "teach me recursion"
    (fun _ _ _ => hplain) (by decide)

/-- C1 (amended): in every iteration whose LLM response has no tool-code
block while obligations are pending, the loop does not return that
response: it appends the corrective system message naming the outstanding
obligations and continues; if tool-turn budget remains, the LLM is invoked
at least once more, and if this was the last budgeted turn the loop
returns the generic stuck message instead. -/
theorem no_code_with_pending_appends_reminder (env : ChatEnv) (c : Nat) (st : LoopState)
    (hcode : extract_code (env.llm c st.policy.get_pending_policies st.history) = none)
    (hp : st.policy.get_pending_policies ≠ []) :
    chatStep env c st =
      .cont ⟨st.history ++ [⟨"system", reminderOf st.policy.get_pending_policies⟩], st.policy⟩
    ∧ (∀ f, chatLoop env (f + 1) c st =
        chatLoop env f (c + 1)
          ⟨st.history ++ [⟨"system", reminderOf st.policy.get_pending_policies⟩], st.policy⟩)
    ∧ chatLoop env 1 c st = (STUCK_MSG, c + 1)
    ∧ (∀ f, c + 2 ≤ (chatLoop env (f + 2) c st).2) := by
  have hstep := chatStep_no_code env c st hcode hp
  refine ⟨hstep, ?_, ?_, ?_⟩
  · intro f
    rw [chatLoop, hstep]
  · rw [chatLoop, hstep]
    rfl
  · intro f
    rw [chatLoop, hstep]
    exact chatLoop_calls_ge_succ env f (c + 1)
      ⟨st.history ++ [⟨"system", reminderOf st.policy.get_pending_policies⟩], st.policy⟩

/-- C1 witness: `no_code_with_pending_appends_reminder` at a concrete
plain-text response with the write obligation pending. -/
theorem no_code_with_pending_appends_reminder_witness :
    chatStep envChat1 0 st1W =
      .cont ⟨st1W.history ++ [⟨"system", reminderOf st1W.policy.get_pending_policies⟩],
             st1W.policy⟩
    ∧ (∀ f, chatLoop envChat1 (f + 1) 0 st1W =
        chatLoop envChat1 f 1
          ⟨st1W.history ++ [⟨"system", reminderOf st1W.policy.get_pending_policies⟩],
           st1W.policy⟩)
    ∧ chatLoop envChat1 1 0 st1W = (STUCK_MSG, 1)
    ∧ (∀ f, 2 ≤ (chatLoop envChat1 (f + 2) 0 st1W).2) :=
  no_code_with_pending_appends_reminder envChat1 0 st1W (by decide) (by decide)

/-- C1 counterexample: with an LLM that answers in plain text on every one of
the ten budgeted turns while the write obligation stays pending, `chat`
makes exactly 10 LLM invocations and returns the stuck message — after the
tenth code-free response the corrective message is appended but the LLM is
not called again, refuting the claim's unconditional "calls the LLM again"
for that iteration. -/
theorem no_code_last_turn_no_further_llm_call :
    extract_code "You should practice problems daily." = none ∧
    polWrite.get_pending_policies = ["KB_WRITE"] ∧
    chat envRefuse polWrite [] "explain monads" = (STUCK_MSG, 10) := by
  have hplain : extract_code "You should practice problems daily." = none := by decide
  refine ⟨hplain, by decide, ?_⟩
  unfold chat
  exact chatLoop_stuck_of_no_code envRefuse (fun _ _ _ => hplain) max_tool_turns 0 _
    (by decide)

end Conversational

namespace KBWrite

/-- C3 (amended): in every knowledge-base write, a non-negative
mastery/confidence input `m` is stored clamped — the stored value equals
`max 0 (min 10 m)` and lies in `[0,10]`; a negative input is the
documented skip sentinel and leaves the stored field exactly as it was
(the fresh record's `0` for a lazily created topic). -/
theorem write_clamps_nonneg_and_skips_negative (st : KBState) (topic : String) (m c : ℚ)
    (reason source note mode : String) (embed : String → List ℚ)
    (nowIso nowDate : String) :
    ((0 ≤ m →
      ((lookupA (knowledge_base_write topic m c reason source note mode embed nowIso
          nowDate st).1.metadata.topics topic).getD (freshRecord topic)).mastery = clamp10 m
        ∧ 0 ≤ clamp10 m ∧ clamp10 m ≤ 10)
    ∧ (m < 0 →
      ((lookupA (knowledge_base_write topic m c reason source note mode embed nowIso
          nowDate st).1.metadata.topics topic).getD (freshRecord topic)).mastery
        = (r0Of st topic).mastery)
    ∧ (0 ≤ c →
      ((lookupA (knowledge_base_write topic m c reason source note mode embed nowIso
          nowDate st).1.metadata.topics topic).getD (freshRecord topic)).confidence = clamp10 c
        ∧ 0 ≤ clamp10 c ∧ clamp10 c ≤ 10)
    ∧ (c < 0 →
      ((lookupA (knowledge_base_write topic m c reason source note mode embed nowIso
          nowDate st).1.metadata.topics topic).getD (freshRecord topic)).confidence
        = (r0Of st topic).confidence)) := by
  obtain ⟨e1, e2, e3⟩ :=
    kbw_stored_fields topic m c reason source note mode embed nowIso nowDate st
  refine ⟨?_, ?_, ?_, ?_⟩
  · intro hm
    refine ⟨?_, clamp10_nonneg m, clamp10_le_ten m⟩
    rw [e1, recordAfter_mastery, applyConfidence_fst_mastery,
      applyMastery_fst_mastery_of_nonneg m _ hm]
  · intro hm
    rw [e1, recordAfter_mastery, applyConfidence_fst_mastery, applyMastery_of_neg m _ hm]
  · intro hc
    refine ⟨?_, clamp10_nonneg c, clamp10_le_ten c⟩
    rw [e2, recordAfter_confidence, applyConfidence_fst_confidence_of_nonneg c _ hc]
  · intro hc
    rw [e2, recordAfter_confidence, applyConfidence_of_neg c _ hc,
      applyMastery_fst_confidence]

/-- C3 witness: `write_clamps_nonneg_and_skips_negative` at a concrete write
of mastery `7` to the `"Chess"` state. -/
theorem write_clamps_nonneg_and_skips_negative_witness :
    (0 : ℚ) ≤ 7 ∧
    (((lookupA (knowledge_base_write "Chess" 7 8 "r" "agent" "" "append" embedW "T"
        "2026-01-01" st3).1.metadata.topics "Chess").getD (freshRecord "Chess")).mastery
      = clamp10 7 ∧ 0 ≤ clamp10 7 ∧ clamp10 7 ≤ 10) :=
  ⟨by norm_num,
   (write_clamps_nonneg_and_skips_negative st3 "Chess" 7 8 "r" "agent" "" "append" embedW
     "T" "2026-01-01").1 (by norm_num)⟩

/-- C3 counterexample: the claim demands the stored value equal
`max 0 (min 10 m)` for every input `m`, but the sentinel `m = -1` leaves
the previously stored `5` in place instead of storing
`max 0 (min 10 (-1)) = 0`. -/
theorem negative_sentinel_not_clamped :
    ((lookupA (knowledge_base_write "Chess" (-1) (-1) "" "agent" "" "append" embedW "T"
        "2026-01-01" st3).1.metadata.topics "Chess").getD (freshRecord "Chess")).mastery = 5
    ∧ clamp10 (-1) = 0 ∧ (5 : ℚ) ≠ 0 := by decide

/-- C4 (amended): every write call with at least one changed field appends
exactly ONE Timeline Event, whose `changes` list carries exactly one
entry per changed field — in particular a single write changing both
mastery and confidence produces one event with two change entries, not
two separate events. -/
theorem write_appends_one_event_entry_per_changed_field (st : KBState) (topic : String)
    (m c : ℚ) (reason source note mode : String) (embed : String → List ℚ)
    (nowIso nowDate : String)
    (hch : changesOf st topic m c ≠ []) :
    (knowledge_base_write topic m c reason source note mode embed nowIso nowDate
        st).1.timeline
      = st.timeline ++
        [{ timestamp := nowIso, topic := topic, type := "update",
           changes := changesOf st topic m c, reason := reason, source := source }]
    ∧ changesOf st topic m c =
      (if 0 ≤ m ∧ (r0Of st topic).mastery ≠ clamp10 m then
        [⟨"mastery", (r0Of st topic).mastery, clamp10 m⟩] else [])
      ++ (if 0 ≤ c ∧ (r0Of st topic).confidence ≠ clamp10 c then
        [⟨"confidence", (r0Of st topic).confidence, clamp10 c⟩] else []) := by
  refine ⟨?_, changesOf_entry_per_changed_field st topic m c⟩
  rw [kbw_timeline, if_pos (Or.inl hch)]
  rfl

/-- C4 witness: `write_appends_one_event_entry_per_changed_field` at a
write of `(7, 8)` over stored `(5, 5)`: one event appended, carrying the
two-entry change list. -/
theorem write_appends_one_event_entry_per_changed_field_witness :
    changesOf st3 "Chess" 7 8 ≠ []
    ∧ changesOf st3 "Chess" 7 8 = [⟨"mastery", 5, 7⟩, ⟨"confidence", 5, 8⟩]
    ∧ (knowledge_base_write "Chess" 7 8 "r" "agent" "" "append" embedW "T"
        "2026-01-01" st3).1.timeline
      = st3.timeline ++
        [{ timestamp := "T", topic := "Chess", type := "update",
           changes := changesOf st3 "Chess" 7 8, reason := "r", source := "agent" }] :=
  ⟨by decide, by decide,
   (write_appends_one_event_entry_per_changed_field st3 "Chess" 7 8 "r" "agent" ""
     "append" embedW "T" "2026-01-01" (by decide)).1⟩

/-- C4 counterexample: a single write changing both mastery and confidence
grows the timeline by one event (carrying two change entries), not by the
two events the claim asserts. -/
theorem double_change_appends_one_event_not_two :
    (knowledge_base_write "Chess" 7 8 "r" "agent" "" "append" embedW "T"
        "2026-01-01" st3).1.timeline.length = st3.timeline.length + 1
    ∧ (knowledge_base_write "Chess" 7 8 "r" "agent" "" "append" embedW "T"
        "2026-01-01" st3).1.timeline
      = [{ timestamp := "T", topic := "Chess", type := "update",
           changes := [⟨"mastery", 5, 7⟩, ⟨"confidence", 5, 8⟩],
           reason := "r", source := "agent" }]
    ∧ (knowledge_base_write "Chess" 7 8 "r" "agent" "" "append" embedW "T"
        "2026-01-01" st3).1.timeline.length ≠ st3.timeline.length + 2 := by decide

/-- C5 (amended): provided the `reason` argument is empty (its default)
and the stored record respects the documented `[0,10]` mastery/confidence
invariant (so that re-clamping the identical inputs is the identity),
writing mastery/confidence values identical to those already stored for
an existing topic — with any note content — appends zero Timeline Events
and leaves the stored `last_reviewed` unchanged. -/
theorem noop_write_no_event_no_touch (st : KBState) (topic : String) (m c : ℚ)
    (source note mode : String) (embed : String → List ℚ) (nowIso nowDate : String)
    (r : TopicRecord)
    (hex : lookupA st.metadata.topics topic = some r)
    (hm : m = r.mastery) (hc : c = r.confidence)
    (hm1 : 0 ≤ r.mastery) (hm2 : r.mastery ≤ 10)
    (hc1 : 0 ≤ r.confidence) (hc2 : r.confidence ≤ 10) :
    (knowledge_base_write topic m c "" source note mode embed nowIso nowDate
        st).1.timeline = st.timeline
    ∧ ((lookupA (knowledge_base_write topic m c "" source note mode embed nowIso nowDate
        st).1.metadata.topics topic).getD (freshRecord topic)).last_reviewed
      = r.last_reviewed := by
  have hr0 : r0Of st topic = r := by
    unfold r0Of
    rw [hex]
    rfl
  have hcm : clamp10 m = r.mastery := by
    rw [hm]
    exact clamp10_eq_self _ hm1 hm2
  have hcc : clamp10 c = r.confidence := by
    rw [hc]
    exact clamp10_eq_self _ hc1 hc2
  have hms : applyMastery m (r0Of st topic) = (r0Of st topic, []) := by
    apply applyMastery_of_eq
    rw [hr0, hcm]
  have hchanges : changesOf st topic m c = [] := by
    unfold changesOf
    rw [hms]
    dsimp only
    rw [applyConfidence_of_eq c _ (by rw [hr0, hcc])]
    rfl
  constructor
  · rw [kbw_timeline, hchanges, if_neg (by simp)]
  · obtain ⟨-, -, e3⟩ :=
      kbw_stored_fields topic m c "" source note mode embed nowIso nowDate st
    rw [e3]
    unfold recordAfter
    rw [if_pos hchanges, applyConfidence_fst_last_reviewed,
      applyMastery_fst_last_reviewed, hr0]

/-- C5 witness: `noop_write_no_event_no_touch` at an identical `(5, 5)`
write (with a note) to the stored `"Chess"` record. -/
theorem noop_write_no_event_no_touch_witness :
    lookupA st3.metadata.topics "Chess" = some chessRec
    ∧ (knowledge_base_write "Chess" 5 5 "" "agent" "a note" "append" embedW "T"
        "2026-01-01" st3).1.timeline = st3.timeline
    ∧ ((lookupA (knowledge_base_write "Chess" 5 5 "" "agent" "a note" "append" embedW "T"
        "2026-01-01" st3).1.metadata.topics "Chess").getD (freshRecord "Chess")).last_reviewed
      = chessRec.last_reviewed :=
  ⟨by decide,
   noop_write_no_event_no_touch st3 "Chess" 5 5 "agent" "a note" "append" embedW "T"
     "2026-01-01" chessRec (by decide) (by decide) (by decide) (by decide) (by decide)
     (by decide) (by decide)⟩

/-- C5 counterexample: an identical `(5, 5)` write to the stored `"Chess"`
record with a non-empty `reason` argument still appends a Timeline Event
(with an empty change list), so the claim's unqualified "zero new Timeline
Events" fails. -/
theorem identical_write_with_reason_logs_event :
    lookupA st3.metadata.topics "Chess" = some chessRec
    ∧ chessRec.mastery = 5 ∧ chessRec.confidence = 5
    ∧ (knowledge_base_write "Chess" 5 5 "noted" "agent" "" "append" embedW "T"
        "2026-01-01" st3).1.timeline.length = st3.timeline.length + 1 := by decide

end KBWrite

namespace Normalizer

/-- C6: when some existing topic equals the raw topic case-insensitively,
`normalize_topic` returns that existing spelling as both canonical and
matched value with score `1.0`, making zero embedding-model calls. -/
theorem exact_match_short_circuits (encode : String → List ℚ) (raw : String)
    (topics : List String) (hne : topics ≠ [])
    (hex : ∃ t ∈ topics, pyLower t = pyLower raw) :
    ∃ t0 ∈ topics, pyLower t0 = pyLower raw ∧
      normalize_topic encode raw topics = ((t0, some t0, 1), 0) := by
  have hsome : (topics.find? (fun t => pyLower t == pyLower raw)).isSome := by
    rw [List.find?_isSome]
    obtain ⟨t, ht, he⟩ := hex
    exact ⟨t, ht, by simp [he]⟩
  obtain ⟨t0, hfind⟩ := Option.isSome_iff_exists.mp hsome
  have ht0 : t0 ∈ topics := List.mem_of_find?_eq_some hfind
  have hp : pyLower t0 = pyLower raw := by
    have := List.find?_some hfind
    simpa using this
  refine ⟨t0, ht0, hp, ?_⟩
  unfold normalize_topic
  rw [if_neg hne, hfind]

/-- C6 witness: `exact_match_short_circuits` on `"agentic ai"` against
`["Agentic AI", "Chess"]`. -/
theorem exact_match_short_circuits_witness :
    ∃ t0 ∈ ["Agentic AI", "Chess"], pyLower t0 = pyLower "agentic ai" ∧
      normalize_topic embedW "agentic ai" ["Agentic AI", "Chess"] = ((t0, some t0, 1), 0) :=
  exact_match_short_circuits embedW "agentic ai" ["Agentic AI", "Chess"] (by decide)
    ⟨"Agentic AI", by decide, by decide⟩

/-- C7: when no exact case-insensitive match exists (and the topic list is
nonempty), `normalize_topic` merges into the arg-max topic exactly when
the best similarity score is `≥ SIMILARITY_THRESHOLD`, returning
`(best, best, score)`; any best score strictly below the threshold yields
`(raw, none, score)`; and the threshold constant is `0.75 = 3/4`. -/
theorem threshold_decides_merge (encode : String → List ℚ) (raw : String)
    (topics : List String) (hne : topics ≠ [])
    (hnomatch : ∀ t ∈ topics, pyLower t ≠ pyLower raw) :
    (SIMILARITY_THRESHOLD ≤
        (passageSims encode raw topics).getD (argmaxIdx (passageSims encode raw topics)) 0 →
      normalize_topic encode raw topics =
        ((topics.getD (argmaxIdx (passageSims encode raw topics)) "",
          some (topics.getD (argmaxIdx (passageSims encode raw topics)) ""),
          (passageSims encode raw topics).getD (argmaxIdx (passageSims encode raw topics)) 0),
         2))
    ∧ ((passageSims encode raw topics).getD (argmaxIdx (passageSims encode raw topics)) 0
        < SIMILARITY_THRESHOLD →
      normalize_topic encode raw topics =
        ((raw, none,
          (passageSims encode raw topics).getD (argmaxIdx (passageSims encode raw topics)) 0),
         2))
    ∧ SIMILARITY_THRESHOLD = 3 / 4 := by
  have hfind : topics.find? (fun t => pyLower t == pyLower raw) = none := by
    rw [List.find?_eq_none]
    intro t ht
    simp [hnomatch t ht]
  refine ⟨?_, ?_, rfl⟩
  · intro h
    unfold normalize_topic
    rw [if_neg hne, hfind]
    dsimp only
    rw [if_pos h]
  · intro h
    unfold normalize_topic
    rw [if_neg hne, hfind]
    dsimp only
    rw [if_neg (not_le.mpr h)]

/-- C7 witness: `threshold_decides_merge` at a best score of exactly `3/4`
(the boundary), which is treated as a merge. -/
theorem threshold_decides_merge_witness :
    SIMILARITY_THRESHOLD ≤ (3 / 4 : ℚ)
    ∧ normalize_topic encBoundary "chess openings" ["Chess"] =
      (("Chess", some "Chess", (3 / 4 : ℚ)), 2) := by
  have hsims : passageSims encBoundary "chess openings" ["Chess"] = [3 / 4] := by
    unfold passageSims encBoundary
    simp [dotQ]
  have hidx : argmaxIdx [(3 / 4 : ℚ)] = 0 := by
    norm_num [argmaxIdx]
  have hle : SIMILARITY_THRESHOLD ≤
      (passageSims encBoundary "chess openings" ["Chess"]).getD
        (argmaxIdx (passageSims encBoundary "chess openings" ["Chess"])) 0 := by
    rw [hsims, hidx]
    norm_num [SIMILARITY_THRESHOLD]
  have h := (threshold_decides_merge encBoundary "chess openings" ["Chess"] (by decide)
    (by decide)).1 hle
  rw [hsims, hidx] at h
  refine ⟨by norm_num [SIMILARITY_THRESHOLD], ?_⟩
  simpa using h

end Normalizer

namespace KBRead

/-- C8 (amended): `_read_profile` is a total function of the backing-file
states; a missing, malformed, or wrong-shaped index yields an empty topics
map, status `partial` or `error`, and a diagnostic message; a missing or
malformed timeline yields empty events, status `partial` or `error`, and
a diagnostic message; but a timeline that parses to a non-list yields
empty events and a message while leaving the status untouched (it can
remain `success`). -/
theorem read_profile_degrades (idx : FileJson (List IndexEntry))
    (tl : FileJson (List Event)) :
    ((idx = .missing ∨ idx = .malformed ∨ idx = .wrongType) →
      (_read_profile idx tl).topics = []
      ∧ ((_read_profile idx tl).status = "partial" ∨ (_read_profile idx tl).status = "error")
      ∧ (_read_profile idx tl).message ≠ none)
    ∧ ((tl = .missing ∨ tl = .malformed) →
      (_read_profile idx tl).recent_events = []
      ∧ ((_read_profile idx tl).status = "partial" ∨ (_read_profile idx tl).status = "error")
      ∧ (_read_profile idx tl).message ≠ none)
    ∧ (tl = .wrongType →
      (_read_profile idx tl).recent_events = [] ∧ (_read_profile idx tl).message ≠ none) := by
  rcases idx with _ | _ | _ | entries <;> rcases tl with _ | _ | _ | evs <;>
    refine ⟨?_, ?_, ?_⟩ <;> intro h <;> simp_all [_read_profile]

/-- C8 witness: `read_profile_degrades` at a missing index with a healthy
timeline. -/
theorem read_profile_degrades_witness :
    (_read_profile .missing (.ok [])).topics = []
    ∧ ((_read_profile .missing (.ok [])).status = "partial"
        ∨ (_read_profile .missing (.ok [])).status = "error")
    ∧ (_read_profile .missing (.ok [])).message ≠ none :=
  (read_profile_degrades .missing (.ok [])).1 (Or.inl rfl)

/-- C8 counterexample: with a healthy index and a timeline file holding
valid JSON of the wrong shape (not a list), `_read_profile` reports
status `"success"` — not the `partial`/`error` the claim requires for
every degraded backing state. -/
theorem timeline_wrong_shape_keeps_success :
    (_read_profile (.ok [idxChess]) .wrongType).status = "success"
    ∧ (_read_profile (.ok [idxChess]) .wrongType).message
      = some "Timeline data is not a list, returning empty"
    ∧ (_read_profile (.ok [idxChess]) .wrongType).recent_events = [] := by decide

end KBRead

